import Mathlib

/-!
Verification of `src/fix-links-1.js` (anchor classify-and-rewrite pass).

The JavaScript source is shallowly embedded below.  DOM anchors are modelled
as records of their relevant attributes (`getAttribute` returning `null` is
`Option.none`); the JS string operations used by the source
(`trim`, `toLowerCase`, `split(/\s+/).filter(Boolean)`, `join(' ')`,
`Set` insertion order) are modelled as executable functions over the
character list of a `String`.  The click listener installed by
`attachHandler` is modelled as a pure function from the anchor, plus an
environment describing the optional external theme functions (each one
absent, present-and-succeeding, or present-and-throwing), to the observable
effects of one click (external calls made, `location.href` assignment,
scrolling, `preventDefault`, and whether an exception escaped the listener).
-/

namespace FixLinks

/-- Model of the JS `\s` character class used by `trim` and `split(/\s+/)`. -/
def isWs (c : Char) : Bool := c.isWhitespace

/-- Model of JS `String.prototype.toLowerCase`: lowercase every character. -/
def lowerStr (s : String) : String := String.mk (s.toList.map Char.toLower)

/-- Model of JS `String.prototype.trim`: drop leading and trailing whitespace. -/
def trimStr (s : String) : String :=
  String.mk (((s.toList.dropWhile fun c => isWs c).reverse.dropWhile fun c => isWs c).reverse)

/-- Helper for `relTokens`: scan the characters, collecting maximal runs of
non-whitespace characters (`acc` is the current run, reversed). -/
def wordsAux : List Char → List Char → List String
  | [], acc => if acc.isEmpty then [] else [String.mk acc.reverse]
  | c :: cs, acc =>
    if isWs c then
      (if acc.isEmpty then [] else [String.mk acc.reverse]) ++ wordsAux cs []
    else
      wordsAux cs (c :: acc)

/-- Model of JS `s.split(/\s+/).filter(Boolean)`: the nonempty maximal
whitespace-free runs of `s`, in order. -/
def relTokens (s : String) : List String := wordsAux s.toList []

/-- Model of JS `Array.prototype.join(' ')`. -/
def joinTokens : List String → String
  | [] => ""
  | [x] => x
  | x :: y :: ys => x ++ " " ++ joinTokens (y :: ys)

/-- Model of adding one element to a JS `Set` (first-occurrence insertion
order, duplicates ignored). -/
def insertToken (xs : List String) (x : String) : List String :=
  if x ∈ xs then xs else xs ++ [x]

/-- `const INVALID_HREFS = new Set([...])` from the source. -/
def INVALID_HREFS : List String :=
  ["", "#", "javascript:void(0)", "javascript:void(0);", "void(0)"]

/-- `const BUTTONY_CLASSES = new Set([...])` from the source. -/
def BUTTONY_CLASSES : List String :=
  ["darkmode_switchbutton", "asideSwitch", "commentBarrage", "console_switchbutton",
   "banner-button", "totopbtn", "randomPost_button", "randomPost", "site-page"]

/-- `const needed = ['noopener', 'noreferrer']` from `hardenRel`. -/
def requiredRel : List String := ["noopener", "noreferrer"]

/-- An anchor element: the attributes `fix-links` reads or writes, plus its
class list.  A missing attribute is `none` (JS `getAttribute` → `null`). -/
structure Anchor where
  href : Option String
  target : Option String
  rel : Option String
  role : Option String
  tabindex : Option String
  onclick : Option String
  classes : List String
  deriving DecidableEq

/-- The token list `Array.from(have)` built inside `hardenRel`: the JS `Set`
of the (lowercased, whitespace-split) existing rel tokens, then `noopener`
and `noreferrer` inserted. -/
def hardenedTokens (rel : String) : List String :=
  requiredRel.foldl insertToken ((relTokens (lowerStr rel)).foldl insertToken [])

/-- The string written back as the new `rel` value by `hardenRel`. -/
def hardenedRelValue (rel : String) : String := joinTokens (hardenedTokens rel)

/-- `function hardenRel(a)` from the source: when `target` lowercases to
`_blank`, rewrite `rel` to the joined hardened token list. -/
def hardenRel (a : Anchor) : Anchor :=
  if lowerStr (a.target.getD "") = "_blank" then
    { a with rel := some (hardenedRelValue (a.rel.getD "")) }
  else a

/-- `function makeButtonLike(a)` from the source. -/
def makeButtonLike (a : Anchor) : Anchor :=
  { a with href := some "#", role := some "button", tabindex := some "0" }

/-- `const rawHref = (a.getAttribute('href') || '').trim().toLowerCase()`. -/
def rawHrefOf (a : Anchor) : String := lowerStr (trimStr (a.href.getD ""))

/-- `const hasOnclick = !!a.getAttribute('onclick')` (JS truthiness: a missing
attribute and the empty string are both falsy). -/
def hasOnclickB (a : Anchor) : Bool := a.onclick.getD "" ≠ ""

/-- `const isInvalidHref = !rawHref || INVALID_HREFS.has(rawHref)`. -/
def isInvalidHrefB (a : Anchor) : Bool :=
  rawHrefOf a = "" || INVALID_HREFS.contains (rawHrefOf a)

/-- `const isButtony = [...BUTTONY_CLASSES].some(c => a.classList.contains(c))`. -/
def isButtonyB (a : Anchor) : Bool :=
  BUTTONY_CLASSES.any fun c => a.classes.contains c

/-- `function sanitizeOne(a)` from the source.  Returns the rewritten anchor
together with a flag recording whether `attachHandler` was invoked on it
(i.e. whether a click and a keydown listener were added). -/
def sanitizeOne (a : Anchor) : Anchor × Bool :=
  let a1 := hardenRel a
  if isInvalidHrefB a || hasOnclickB a then
    if isButtonyB a then
      (makeButtonLike a1, true)
    else if isInvalidHrefB a then
      ({ a1 with href := some "#current" }, false)
    else
      (a1, false)
  else
    (a1, false)

/-- Status of one optional external theme function in the host page. -/
inductive ExtFn where
  | absent
  | succeeds
  | throws
  deriving DecidableEq

/-- The host environment seen by the click listener: every optional external
theme function the source probes, plus whether the smooth `scrollTo` call and
the `location.href` assignment throw. -/
structure Env where
  navFnSwitchDarkMode : ExtFn
  navFnSwitcharMode : ExtFn
  heoSwitchDarkMode : ExtFn
  windowSwitchDarkMode : ExtFn
  heoShowConsole : ExtFn
  heoHideConsole : ExtFn
  switchCommentBarrage : ExtFn
  heoToggleCommentBarrage : ExtFn
  toRandomPost : ExtFn
  smoothScrollFails : Bool
  locationAssignThrows : Bool

/-- Mutable state accumulated by one run of the click listener: external
functions called (in order), any `location.href` assignment that completed,
and whether the viewport was scrolled to the top. -/
structure HandlerSt where
  called : List String
  location : Option String
  scrolled : Bool
  deriving DecidableEq

/-- Model of `if (window.f) return void window.f();` inside a `try` block:
if the function is absent, continue with `rest`; if present, record the call,
and either return normally or raise (`Except.error` models a JS throw,
carrying the state mutated so far). -/
def probe (name : String) (f : ExtFn) (rest : HandlerSt → Except HandlerSt HandlerSt)
    (s : HandlerSt) : Except HandlerSt HandlerSt :=
  match f with
  | .absent => rest s
  | .succeeds => .ok { s with called := s.called ++ [name] }
  | .throws => .error { s with called := s.called ++ [name] }

/-- Model of `try { body } catch (_) {}`: a thrown error is discarded, keeping
the state mutated before the throw. -/
def runTry : Except HandlerSt HandlerSt → HandlerSt
  | .ok s => s
  | .error s => s

/-- The behavior tags of the click dispatch (spec §3 `BehaviorTag`). -/
inductive Tag where
  | darkmode
  | asideSwitch
  | consoleSwitch
  | bannerButton
  | commentBarrage
  | totop
  | randomPost
  | sitePage
  deriving DecidableEq

/-- The class spellings that make an anchor match a behavior tag. -/
def tagClasses : Tag → List String
  | .darkmode => ["darkmode_switchbutton"]
  | .asideSwitch => ["asideSwitch"]
  | .consoleSwitch => ["console_switchbutton"]
  | .bannerButton => ["banner-button"]
  | .commentBarrage => ["commentBarrage"]
  | .totop => ["totopbtn"]
  | .randomPost => ["randomPost", "randomPost_button"]
  | .sitePage => ["site-page"]

/-- The fixed priority order of the click dispatch (spec §4.2). -/
def tagOrder : List Tag :=
  [.darkmode, .asideSwitch, .consoleSwitch, .bannerButton,
   .commentBarrage, .totop, .randomPost, .sitePage]

/-- Whether a class list matches a behavior tag. -/
def matchesTag (cls : List String) (t : Tag) : Bool :=
  (tagClasses t).any fun c => cls.contains c

/-- The first matching behavior tag in the fixed priority order (the
spec-side description of the dispatch). -/
def firstTag (cls : List String) : Option Tag :=
  tagOrder.find? fun t => matchesTag cls t

/-- Result of dispatching one click on an anchor: whether `preventDefault`
ran, which dispatch branch executed (if any), the accumulated effects, and
whether an exception escaped the listener. -/
structure ClickResult where
  prevented : Bool
  branch : Option Tag
  st : HandlerSt
  propagated : Bool
  deriving DecidableEq

/-- The body of the `darkmode_switchbutton` branch's `try` block. -/
def darkBody (env : Env) : HandlerSt → Except HandlerSt HandlerSt :=
  probe "navFn.switchDarkMode" env.navFnSwitchDarkMode
    (probe "navFn.switcharMode" env.navFnSwitcharMode
      (probe "heo.switchDarkMode" env.heoSwitchDarkMode
        (probe "switchDarkMode" env.windowSwitchDarkMode Except.ok)))

/-- The body of the `asideSwitch` branch's `try` block. -/
def asideBody (env : Env) : HandlerSt → Except HandlerSt HandlerSt :=
  probe "heo.showConsole" env.heoShowConsole Except.ok

/-- The body of the `console_switchbutton` branch's `try` block. -/
def consoleBody (env : Env) : HandlerSt → Except HandlerSt HandlerSt :=
  probe "heo.showConsole" env.heoShowConsole
    (probe "heo.hideConsole" env.heoHideConsole Except.ok)

/-- The body of the `commentBarrage` branch's `try` block. -/
def barrageBody (env : Env) : HandlerSt → Except HandlerSt HandlerSt :=
  probe "switchCommentBarrage" env.switchCommentBarrage
    (probe "heo.toggleCommentBarrage" env.heoToggleCommentBarrage Except.ok)

/-- The `totopbtn` branch: `try { scrollTo({smooth}) } catch { scrollTo(0,0) }`;
either way the viewport ends up scrolled to the top. -/
def totopSt (env : Env) (s : HandlerSt) : HandlerSt :=
  match (if env.smoothScrollFails then Except.error s
         else Except.ok { s with scrolled := true } : Except HandlerSt HandlerSt) with
  | .ok s1 => s1
  | .error s1 => { s1 with scrolled := true }

/-- The body of the `randomPost` branch's `try` block: probe `toRandomPost`;
when it is absent, assign `location.href = '/archives/'` (an assignment that
may itself throw). -/
def randomBody (env : Env) : HandlerSt → Except HandlerSt HandlerSt :=
  probe "toRandomPost" env.toRandomPost fun s =>
    if env.locationAssignThrows then Except.error s
    else Except.ok { s with location := some "/archives/" }

/-- The listener state at the start of a click (nothing called, no
navigation, no scrolling yet). -/
def st0 : HandlerSt := { called := [], location := none, scrolled := false }

/-- The click listener installed by `attachHandler`, as a function of the
anchor it closed over and of the host environment.  Mirrors the source's
chain of `if (cls.contains(...)) { try {...} catch {} return; }` branches. -/
def clickHandler (a : Anchor) (env : Env) : ClickResult :=
  let prevented := a.href.getD "" = "#"
  let s0 : HandlerSt := st0
  let cls := a.classes
  if cls.contains "darkmode_switchbutton" then
    { prevented := prevented, branch := some Tag.darkmode,
      st := runTry (darkBody env s0), propagated := false }
  else if cls.contains "asideSwitch" then
    { prevented := prevented, branch := some Tag.asideSwitch,
      st := runTry (asideBody env s0), propagated := false }
  else if cls.contains "console_switchbutton" then
    { prevented := prevented, branch := some Tag.consoleSwitch,
      st := runTry (consoleBody env s0), propagated := false }
  else if cls.contains "banner-button" then
    { prevented := prevented, branch := some Tag.bannerButton,
      st := s0, propagated := false }
  else if cls.contains "commentBarrage" then
    { prevented := prevented, branch := some Tag.commentBarrage,
      st := runTry (barrageBody env s0), propagated := false }
  else if cls.contains "totopbtn" then
    { prevented := prevented, branch := some Tag.totop,
      st := totopSt env s0, propagated := false }
  else if cls.contains "randomPost" || cls.contains "randomPost_button" then
    { prevented := prevented, branch := some Tag.randomPost,
      st := runTry (randomBody env s0), propagated := false }
  else if cls.contains "site-page" then
    { prevented := prevented, branch := some Tag.sitePage,
      st := s0, propagated := false }
  else
    { prevented := prevented, branch := none, st := s0, propagated := false }

/-- A host with every optional external function absent and no host-API
failures (used to instantiate universally quantified theorems). -/
def envAllAbsent : Env :=
  { navFnSwitchDarkMode := .absent, navFnSwitcharMode := .absent,
    heoSwitchDarkMode := .absent, windowSwitchDarkMode := .absent,
    heoShowConsole := .absent, heoHideConsole := .absent,
    switchCommentBarrage := .absent, heoToggleCommentBarrage := .absent,
    toRandomPost := .absent, smoothScrollFails := false,
    locationAssignThrows := false }

/-- An anchor with no attributes and no classes (base point for concrete
witnesses; witnesses override the fields they need). -/
def blankAnchor : Anchor :=
  { href := none, target := none, rel := none, role := none,
    tabindex := none, onclick := none, classes := [] }

/-- The listener state produced by the dispatch branch that executed. -/
def stOfBranch : Option Tag → Env → HandlerSt
  | some Tag.darkmode, env => runTry (darkBody env st0)
  | some Tag.asideSwitch, env => runTry (asideBody env st0)
  | some Tag.consoleSwitch, env => runTry (consoleBody env st0)
  | some Tag.bannerButton, _ => st0
  | some Tag.commentBarrage, env => runTry (barrageBody env st0)
  | some Tag.totop, env => totopSt env st0
  | some Tag.randomPost, env => runTry (randomBody env st0)
  | some Tag.sitePage, _ => st0
  | none, _ => st0

/-- A button-class anchor whose href is valid: the classify pass does not
rewrite it (counterexample input). -/
def validHrefButtonAnchor : Anchor :=
  { blankAnchor with href := some "/posts/1", classes := ["randomPost"] }

/-- A `randomPost` button anchor with an empty href (counterexample and
witness input). -/
def emptyHrefRandomAnchor : Anchor :=
  { blankAnchor with href := some "", classes := ["randomPost"] }

/-- An anchor carrying `target="_blank"` and a mixed-case rel token
(counterexample input for token preservation). -/
def mixedCaseRelAnchor : Anchor :=
  { blankAnchor with target := some "_blank", rel := some "External" }

/-- An anchor with an onclick attribute and no href (counterexample input). -/
def onclickNoHrefAnchor : Anchor :=
  { blankAnchor with onclick := some "f()" }

/-- A host in which `toRandomPost` is missing and the `location.href`
assignment itself throws (counterexample environment). -/
def locationThrowsEnv : Env :=
  { envAllAbsent with locationAssignThrows := true }

/-- A processed-looking `randomPost` anchor (witness input for the click
dispatch claims). -/
def randomPostAnchor : Anchor :=
  { blankAnchor with href := some "#", classes := ["randomPost"] }

/-- An anchor matching two behavior tags at once (witness input). -/
def multiTagAnchor : Anchor :=
  { blankAnchor with href := some "", classes := ["darkmode_switchbutton", "totopbtn"] }

/-- The spec's scenario anchor `<a class="totopbtn" href="javascript:void(0);">`
(witness input). -/
def voidTotopAnchor : Anchor :=
  { blankAnchor with href := some "javascript:void(0);", classes := ["totopbtn"] }

/-- An anchor with `target="_Blank"` and existing `rel="noopener"`
(witness input). -/
def blankTargetRelAnchor : Anchor :=
  { blankAnchor with target := some "_Blank", rel := some "noopener" }

/-! String-level lemmas -/

theorem toList_mk (l : List Char) : (String.mk l).toList = l := rfl

theorem mk_toList (s : String) : String.mk s.toList = s := rfl

theorem toList_append (a b : String) : (a ++ b).toList = a.toList ++ b.toList := rfl

theorem char_toLower_idem (c : Char) : c.toLower.toLower = c.toLower := by
  unfold Char.toLower
  by_cases h : c.toNat ≥ 65 ∧ c.toNat ≤ 90
  · rw [if_pos h]
    have hv : (c.toNat + 32).isValidChar := Or.inl (by omega)
    have ht : (Char.ofNat (c.toNat + 32)).toNat = c.toNat + 32 := by
      rw [Char.ofNat, dif_pos hv]
      simp [Char.ofNatAux, Char.toNat, UInt32.toNat, BitVec.toNat_ofNatLt]
    rw [if_neg (by rw [ht]; omega)]
  · rw [if_neg h, if_neg h]

/-- Every character of `lowerStr s` is fixed by `Char.toLower`. -/
theorem lowerStr_chars (s : String) : ∀ c ∈ (lowerStr s).toList, c.toLower = c := by
  intro c hc
  rw [lowerStr, toList_mk] at hc
  obtain ⟨d, _, rfl⟩ := List.mem_map.mp hc
  exact char_toLower_idem d

/-- If every character of `s` is fixed by `Char.toLower`, then `lowerStr`
fixes `s`. -/
theorem lowerStr_eq_self {s : String} (h : ∀ c ∈ s.toList, c.toLower = c) :
    lowerStr s = s := by
  rw [lowerStr, List.map_congr_left h, List.map_id']
  exact mk_toList s

/-- The "flush `acc`" step of `wordsAux` produces only nonempty tokens of
non-whitespace characters satisfying `p`. -/
theorem flush_mem {p : Char → Prop} {acc : List Char} {t : String}
    (hacc : ∀ c ∈ acc, isWs c = false ∧ p c)
    (ht : t ∈ (if acc.isEmpty then ([] : List String) else [String.mk acc.reverse])) :
    t ≠ "" ∧ ∀ c ∈ t.toList, isWs c = false ∧ p c := by
  split at ht
  · simp at ht
  · next hne =>
    simp only [List.mem_singleton] at ht
    subst ht
    refine ⟨?_, ?_⟩
    · intro hcon
      have : acc.reverse = ([] : List Char) := congrArg String.toList hcon
      simp [List.isEmpty_iff, List.reverse_eq_nil_iff.mp this] at hne
    · intro c hc
      rw [toList_mk] at hc
      exact hacc c (List.mem_reverse.mp hc)

/-- Every token produced by `wordsAux` is nonempty and consists of
non-whitespace characters; moreover any character property `p` that holds of
all non-whitespace input characters holds of all token characters. -/
theorem wordsAux_mem {p : Char → Prop} (cs : List Char) :
    ∀ (acc : List Char), (∀ c ∈ cs, isWs c = true ∨ p c) →
      (∀ c ∈ acc, isWs c = false ∧ p c) →
      ∀ t ∈ wordsAux cs acc, t ≠ "" ∧ ∀ c ∈ t.toList, isWs c = false ∧ p c := by
  induction cs with
  | nil =>
    intro acc _ hacc t ht
    exact flush_mem hacc ht
  | cons c cs ih =>
    intro acc hcs hacc t ht
    unfold wordsAux at ht
    by_cases hws : isWs c
    · rw [if_pos hws] at ht
      rcases List.mem_append.mp ht with h1 | h2
      · exact flush_mem hacc h1
      · exact ih [] (fun d hd => hcs d (List.mem_cons_of_mem _ hd)) (by simp) t h2
    · rw [if_neg hws] at ht
      have hp : p c := by
        rcases hcs c (List.mem_cons_self _ _) with h | h
        · exact absurd h hws
        · exact h
      refine ih (c :: acc) (fun d hd => hcs d (List.mem_cons_of_mem _ hd)) ?_ t ht
      intro d hd
      rcases List.mem_cons.mp hd with rfl | hd
      · exact ⟨Bool.not_eq_true _ ▸ hws, hp⟩
      · exact hacc d hd

theorem wordsAux_cons_pos {c : Char} (h : isWs c = true) (cs acc : List Char) :
    wordsAux (c :: cs) acc
      = (if acc.isEmpty then [] else [String.mk acc.reverse]) ++ wordsAux cs [] := by
  simp only [wordsAux]
  rw [if_pos h]

theorem wordsAux_cons_neg {c : Char} (h : isWs c = false) (cs acc : List Char) :
    wordsAux (c :: cs) acc = wordsAux cs (c :: acc) := by
  simp only [wordsAux]
  rw [if_neg (by simp [h])]

/-- Scanning a whitespace-free prefix just accumulates it. -/
theorem wordsAux_append (w : List Char) :
    ∀ (cs acc : List Char), (∀ c ∈ w, isWs c = false) →
      wordsAux (w ++ cs) acc = wordsAux cs (w.reverse ++ acc) := by
  induction w with
  | nil => intro cs acc _; rfl
  | cons c w ih =>
    intro cs acc hw
    have hc : isWs c = false := hw c (List.mem_cons_self _ _)
    show wordsAux (c :: (w ++ cs)) acc = _
    rw [wordsAux_cons_neg hc, ih cs (c :: acc) (fun d hd => hw d (List.mem_cons_of_mem _ hd))]
    congr 1
    simp

/-- Splitting the join of a list of nonempty, whitespace-free tokens
recovers exactly that list. -/
theorem relTokens_joinTokens :
    ∀ (l : List String), (∀ t ∈ l, t ≠ "" ∧ ∀ c ∈ t.toList, isWs c = false) →
      relTokens (joinTokens l) = l := by
  intro l
  induction l with
  | nil => intro _; rfl
  | cons x xs ih =>
    intro hl
    obtain ⟨hx, hxw⟩ := hl x (List.mem_cons_self _ _)
    have hxe : x.toList ≠ [] := fun hcon => hx (by rw [← mk_toList x, hcon])
    have hxd : ¬x.data = [] := hxe
    have hxne : ¬(x.toList.reverse ++ ([] : List Char)).isEmpty = true := by
      simp [List.isEmpty_iff, hxd]
    cases xs with
    | nil =>
      show relTokens x = [x]
      rw [relTokens, ← List.append_nil x.toList, wordsAux_append x.toList [] [] hxw]
      show (if (x.toList.reverse ++ ([] : List Char)).isEmpty then _ else _) = _
      rw [if_neg hxne]
      simp [mk_toList]
    | cons y ys =>
      show relTokens (x ++ " " ++ joinTokens (y :: ys)) = x :: y :: ys
      have hsp : (x ++ " " ++ joinTokens (y :: ys)).toList
          = x.toList ++ (' ' :: (joinTokens (y :: ys)).toList) := by
        rw [toList_append, toList_append]
        simp
      rw [relTokens, hsp, wordsAux_append x.toList _ [] hxw,
        wordsAux_cons_pos (by decide), if_neg hxne]
      have hrec : wordsAux (joinTokens (y :: ys)).toList [] = y :: ys :=
        ih fun t ht => hl t (List.mem_cons_of_mem _ ht)
      simp [mk_toList]
      exact hrec

/-! JS `Set` (insertion-order) lemmas -/

theorem mem_insertToken {xs : List String} {y x : String} :
    x ∈ insertToken xs y ↔ x ∈ xs ∨ x = y := by
  unfold insertToken
  split
  · next h =>
    constructor
    · exact Or.inl
    · rintro (hx | rfl)
      · exact hx
      · exact h
  · simp

theorem mem_foldl_insertToken (l : List String) :
    ∀ (init : List String) (x : String),
      x ∈ l.foldl insertToken init ↔ x ∈ init ∨ x ∈ l := by
  induction l with
  | nil => simp
  | cons y ys ih =>
    intro init x
    show x ∈ ys.foldl insertToken (insertToken init y) ↔ _
    rw [ih, mem_insertToken]
    constructor
    · rintro ((h | rfl) | h)
      · exact Or.inl h
      · exact Or.inr (List.mem_cons_self _ _)
      · exact Or.inr (List.mem_cons_of_mem _ h)
    · rintro (h | h)
      · exact Or.inl (Or.inl h)
      · rcases List.mem_cons.mp h with rfl | h
        · exact Or.inl (Or.inr rfl)
        · exact Or.inr h

theorem nodup_insertToken {xs : List String} (h : xs.Nodup) (y : String) :
    (insertToken xs y).Nodup := by
  unfold insertToken
  split
  · exact h
  · next hy =>
    exact List.Nodup.append h (List.nodup_singleton y)
      (List.disjoint_singleton.mpr hy)

theorem nodup_foldl_insertToken (l : List String) :
    ∀ (init : List String), init.Nodup → (l.foldl insertToken init).Nodup := by
  induction l with
  | nil => intro init h; exact h
  | cons y ys ih => intro init h; exact ih _ (nodup_insertToken h y)

/-- Folding `insertToken` over a list whose elements are all already present
leaves the accumulator unchanged. -/
theorem foldl_insertToken_subset (l : List String) :
    ∀ (acc : List String), (∀ x ∈ l, x ∈ acc) → l.foldl insertToken acc = acc := by
  induction l with
  | nil => intro acc _; rfl
  | cons y ys ih =>
    intro acc h
    show ys.foldl insertToken (insertToken acc y) = acc
    rw [insertToken, if_pos (h y (List.mem_cons_self _ _))]
    exact ih acc fun x hx => h x (List.mem_cons_of_mem _ hx)

/-- Folding `insertToken` over a duplicate-free list rebuilds it. -/
theorem foldl_insertToken_nodup (l : List String) :
    ∀ (acc : List String), (acc ++ l).Nodup → l.foldl insertToken acc = acc ++ l := by
  induction l with
  | nil => intro acc _; simp
  | cons y ys ih =>
    intro acc h
    have hy : y ∉ acc := by
      intro hcon
      exact (List.disjoint_of_nodup_append h) hcon (List.mem_cons_self _ _)
    show ys.foldl insertToken (insertToken acc y) = acc ++ y :: ys
    rw [insertToken, if_neg hy]
    rw [ih (acc ++ [y]) (by simpa using h)]
    simp

/-! Properties of the hardened rel value -/

/-- Membership in the hardened token list: exactly the (lowercased) previous
tokens together with `noopener` and `noreferrer`. -/
theorem mem_hardenedTokens (rel x : String) :
    x ∈ hardenedTokens rel ↔ x ∈ relTokens (lowerStr rel) ∨ x ∈ requiredRel := by
  rw [hardenedTokens, mem_foldl_insertToken, mem_foldl_insertToken]
  simp [or_comm]

/-- Every hardened token is nonempty, whitespace-free, and lowercase-fixed. -/
theorem hardenedTokens_props (rel : String) :
    ∀ x ∈ hardenedTokens rel,
      x ≠ "" ∧ ∀ c ∈ x.toList, isWs c = false ∧ c.toLower = c := by
  intro x hx
  rcases (mem_hardenedTokens rel x).mp hx with h | h
  · refine wordsAux_mem (p := fun c => c.toLower = c) (lowerStr rel).toList [] ?_ (by simp) x h
    intro c hc
    exact Or.inr (lowerStr_chars rel c hc)
  · fin_cases h <;> refine ⟨by decide, ?_⟩ <;> intro c hc <;> fin_cases hc <;> decide

theorem hardenedTokens_nodup (rel : String) : (hardenedTokens rel).Nodup :=
  nodup_foldl_insertToken _ _ (nodup_foldl_insertToken _ _ List.nodup_nil)

/-- Re-splitting the written-back rel value recovers the hardened tokens. -/
theorem relTokens_hardenedRelValue (rel : String) :
    relTokens (hardenedRelValue rel) = hardenedTokens rel :=
  relTokens_joinTokens _ fun t ht =>
    ⟨(hardenedTokens_props rel t ht).1,
     fun c hc => ((hardenedTokens_props rel t ht).2 c hc).1⟩

/-- Every character of the written-back rel value is lowercase-fixed. -/
theorem hardenedRelValue_chars (rel : String) :
    ∀ c ∈ (hardenedRelValue rel).toList, c.toLower = c := by
  rw [hardenedRelValue]
  generalize hl : hardenedTokens rel = l
  have hprops : ∀ t ∈ l, ∀ c ∈ t.toList, c.toLower = c := by
    intro t ht c hc
    exact ((hardenedTokens_props rel t (hl ▸ ht)).2 c hc).2
  clear hl
  induction l with
  | nil => intro c hc; simp [joinTokens] at hc
  | cons x xs ih =>
    intro c hc
    cases xs with
    | nil =>
      exact hprops x (List.mem_cons_self _ _) c hc
    | cons y ys =>
      show c.toLower = c
      rw [show joinTokens (x :: y :: ys) = x ++ " " ++ joinTokens (y :: ys) from rfl,
        toList_append, toList_append] at hc
      rcases List.mem_append.mp hc with hc1 | hc2
      · rcases List.mem_append.mp hc1 with hc3 | hc4
        · exact hprops x (List.mem_cons_self _ _) c hc3
        · have : c = ' ' := by simpa using hc4
          subst this; decide
      · exact ih (fun t ht => hprops t (List.mem_cons_of_mem _ ht)) c hc2

/-- `lowerStr` fixes the written-back rel value. -/
theorem lowerStr_hardenedRelValue (rel : String) :
    lowerStr (hardenedRelValue rel) = hardenedRelValue rel :=
  lowerStr_eq_self (hardenedRelValue_chars rel)

/-- Key idempotence fact: hardening an already-hardened rel value is the
identity. -/
theorem hardenedRelValue_idem (rel : String) :
    hardenedRelValue (hardenedRelValue rel) = hardenedRelValue rel := by
  rw [hardenedRelValue, hardenedTokens, lowerStr_hardenedRelValue,
    relTokens_hardenedRelValue,
    foldl_insertToken_nodup _ [] (by simpa using hardenedTokens_nodup rel),
    List.nil_append,
    foldl_insertToken_subset _ _ ?_]
  · rfl
  · intro x hx
    rw [mem_hardenedTokens]
    exact Or.inr hx

/-! Anchor-level lemmas -/

@[simp] theorem hardenRel_href (a : Anchor) : (hardenRel a).href = a.href := by
  rw [hardenRel]; split <;> rfl

@[simp] theorem hardenRel_target (a : Anchor) : (hardenRel a).target = a.target := by
  rw [hardenRel]; split <;> rfl

@[simp] theorem hardenRel_role (a : Anchor) : (hardenRel a).role = a.role := by
  rw [hardenRel]; split <;> rfl

@[simp] theorem hardenRel_tabindex (a : Anchor) : (hardenRel a).tabindex = a.tabindex := by
  rw [hardenRel]; split <;> rfl

@[simp] theorem hardenRel_onclick (a : Anchor) : (hardenRel a).onclick = a.onclick := by
  rw [hardenRel]; split <;> rfl

@[simp] theorem hardenRel_classes (a : Anchor) : (hardenRel a).classes = a.classes := by
  rw [hardenRel]; split <;> rfl

@[simp] theorem makeButtonLike_href (a : Anchor) : (makeButtonLike a).href = some "#" := rfl

@[simp] theorem makeButtonLike_role (a : Anchor) : (makeButtonLike a).role = some "button" := rfl

@[simp] theorem makeButtonLike_tabindex (a : Anchor) :
    (makeButtonLike a).tabindex = some "0" := rfl

@[simp] theorem makeButtonLike_target (a : Anchor) : (makeButtonLike a).target = a.target := rfl

@[simp] theorem makeButtonLike_rel (a : Anchor) : (makeButtonLike a).rel = a.rel := rfl

@[simp] theorem makeButtonLike_onclick (a : Anchor) :
    (makeButtonLike a).onclick = a.onclick := rfl

@[simp] theorem makeButtonLike_classes (a : Anchor) :
    (makeButtonLike a).classes = a.classes := rfl

theorem makeButtonLike_idem (a : Anchor) :
    makeButtonLike (makeButtonLike a) = makeButtonLike a := rfl

theorem hardenRel_rel_blank {y : Anchor} (hb : lowerStr (y.target.getD "") = "_blank") :
    (hardenRel y).rel = some (hardenedRelValue (y.rel.getD "")) := by
  rw [hardenRel, if_pos hb]

theorem hardenRel_of_rel_hardened {x : Anchor} {r : String}
    (hrel : x.rel = some (hardenedRelValue r)) : hardenRel x = x := by
  rw [hardenRel]
  split
  · rw [show (some (hardenedRelValue (x.rel.getD "")) : Option String) = x.rel from by
      rw [hrel]; simp [hardenedRelValue_idem]]
  · rfl

/-- Re-running `hardenRel` on any anchor whose `rel` and `target` already come
out of a `hardenRel` run is the identity. -/
theorem hardenRel_fixes {x y : Anchor} (hrel : x.rel = (hardenRel y).rel)
    (htg : x.target = y.target) : hardenRel x = x := by
  by_cases hb : lowerStr (y.target.getD "") = "_blank"
  · exact hardenRel_of_rel_hardened (hrel.trans (hardenRel_rel_blank hb))
  · rw [hardenRel, if_neg (by rw [htg]; exact hb)]

theorem hardenRel_idem (a : Anchor) : hardenRel (hardenRel a) = hardenRel a :=
  hardenRel_fixes rfl (hardenRel_target a)

/-! Scenario lemmas for `sanitizeOne` -/

theorem sanitizeOne_buttony {a : Anchor}
    (h1 : (isInvalidHrefB a || hasOnclickB a) = true) (h2 : isButtonyB a = true) :
    sanitizeOne a = (makeButtonLike (hardenRel a), true) := by
  simp [sanitizeOne, h1, h2]

theorem sanitizeOne_plain_invalid {a : Anchor}
    (h1 : isInvalidHrefB a = true) (h2 : isButtonyB a = false) :
    sanitizeOne a = ({ hardenRel a with href := some "#current" }, false) := by
  simp [sanitizeOne, h1, h2]

theorem sanitizeOne_onclick_only {a : Anchor} (h0 : isInvalidHrefB a = false)
    (h1 : hasOnclickB a = true) (h2 : isButtonyB a = false) :
    sanitizeOne a = (hardenRel a, false) := by
  simp [sanitizeOne, h0, h1, h2]

theorem sanitizeOne_ordinary {a : Anchor} (h0 : isInvalidHrefB a = false)
    (h1 : hasOnclickB a = false) :
    sanitizeOne a = (hardenRel a, false) := by
  simp [sanitizeOne, h0, h1]

/-- `sanitizeOne` never changes the class list. -/
theorem sanitizeOne_classes (a : Anchor) : (sanitizeOne a).1.classes = a.classes := by
  rw [sanitizeOne]
  split
  · split
    · simp
    · split <;> simp
  · simp

theorem rawHrefOf_congr {x y : Anchor} (h : x.href = y.href) :
    rawHrefOf x = rawHrefOf y := by rw [rawHrefOf, h, rawHrefOf]

theorem isInvalidHrefB_congr {x y : Anchor} (h : x.href = y.href) :
    isInvalidHrefB x = isInvalidHrefB y := by
  rw [isInvalidHrefB, rawHrefOf_congr h, isInvalidHrefB]

theorem hasOnclickB_congr {x y : Anchor} (h : x.onclick = y.onclick) :
    hasOnclickB x = hasOnclickB y := by rw [hasOnclickB, h, hasOnclickB]

theorem isButtonyB_congr {x y : Anchor} (h : x.classes = y.classes) :
    isButtonyB x = isButtonyB y := by rw [isButtonyB, h, isButtonyB]

theorem isInvalidHrefB_hash {x : Anchor} (h : x.href = some "#") :
    isInvalidHrefB x = true := by
  rw [isInvalidHrefB, rawHrefOf, h]
  decide

theorem isInvalidHrefB_current {x : Anchor} (h : x.href = some "#current") :
    isInvalidHrefB x = false := by
  rw [isInvalidHrefB, rawHrefOf, h]
  decide

/-! Click-listener lemmas -/

theorem clickHandler_prevented (x : Anchor) (env : Env) :
    (clickHandler x env).prevented = decide (x.href.getD "" = "#") := by
  simp only [clickHandler]
  split_ifs <;> rfl

theorem clickHandler_propagated (x : Anchor) (env : Env) :
    (clickHandler x env).propagated = false := by
  simp only [clickHandler]
  split_ifs <;> rfl

theorem clickHandler_st (x : Anchor) (env : Env) :
    (clickHandler x env).st = stOfBranch (clickHandler x env).branch env := by
  simp only [clickHandler]
  split_ifs <;> rfl

/-- The source's dispatch chain executes exactly the first matching tag of
the fixed priority order. -/
theorem clickHandler_branch (x : Anchor) (env : Env) :
    (clickHandler x env).branch = firstTag x.classes := by
  simp only [clickHandler]
  by_cases h1 : "darkmode_switchbutton" ∈ x.classes
  · rw [if_pos (show x.classes.contains "darkmode_switchbutton" = true by simpa using h1)]
    simp [firstTag, tagOrder, matchesTag, tagClasses, List.find?, h1]
  · rw [if_neg (show ¬x.classes.contains "darkmode_switchbutton" = true by simpa using h1)]
    by_cases h2 : "asideSwitch" ∈ x.classes
    · rw [if_pos (show x.classes.contains "asideSwitch" = true by simpa using h2)]
      simp [firstTag, tagOrder, matchesTag, tagClasses, List.find?, h1, h2]
    · rw [if_neg (show ¬x.classes.contains "asideSwitch" = true by simpa using h2)]
      by_cases h3 : "console_switchbutton" ∈ x.classes
      · rw [if_pos (show x.classes.contains "console_switchbutton" = true by simpa using h3)]
        simp [firstTag, tagOrder, matchesTag, tagClasses, List.find?, h1, h2, h3]
      · rw [if_neg (show ¬x.classes.contains "console_switchbutton" = true by simpa using h3)]
        by_cases h4 : "banner-button" ∈ x.classes
        · rw [if_pos (show x.classes.contains "banner-button" = true by simpa using h4)]
          simp [firstTag, tagOrder, matchesTag, tagClasses, List.find?, h1, h2, h3, h4]
        · rw [if_neg (show ¬x.classes.contains "banner-button" = true by simpa using h4)]
          by_cases h5 : "commentBarrage" ∈ x.classes
          · rw [if_pos (show x.classes.contains "commentBarrage" = true by simpa using h5)]
            simp [firstTag, tagOrder, matchesTag, tagClasses, List.find?, h1, h2, h3, h4, h5]
          · rw [if_neg (show ¬x.classes.contains "commentBarrage" = true by simpa using h5)]
            by_cases h6 : "totopbtn" ∈ x.classes
            · rw [if_pos (show x.classes.contains "totopbtn" = true by simpa using h6)]
              simp [firstTag, tagOrder, matchesTag, tagClasses, List.find?, h1, h2, h3, h4, h5, h6]
            · rw [if_neg (show ¬x.classes.contains "totopbtn" = true by simpa using h6)]
              by_cases h7 : "randomPost" ∈ x.classes ∨ "randomPost_button" ∈ x.classes
              · rw [if_pos (show (x.classes.contains "randomPost"
                    || x.classes.contains "randomPost_button") = true by simpa using h7)]
                rcases h7 with h7 | h7 <;>
                  simp [firstTag, tagOrder, matchesTag, tagClasses, List.find?,
                    h1, h2, h3, h4, h5, h6, h7]
              · push_neg at h7
                rw [if_neg (show ¬(x.classes.contains "randomPost"
                    || x.classes.contains "randomPost_button") = true by simp [h7.1, h7.2])]
                by_cases h8 : "site-page" ∈ x.classes
                · rw [if_pos (show x.classes.contains "site-page" = true by simpa using h8)]
                  simp [firstTag, tagOrder, matchesTag, tagClasses, List.find?,
                    h1, h2, h3, h4, h5, h6, h7.1, h7.2, h8]
                · rw [if_neg (show ¬x.classes.contains "site-page" = true by simpa using h8)]
                  simp [firstTag, tagOrder, matchesTag, tagClasses, List.find?,
                    h1, h2, h3, h4, h5, h6, h7.1, h7.2, h8]

/-- A `probe` never touches the `location` field (only `rest` may). -/
theorem runTry_probe_location {name : String} {f : ExtFn}
    {rest : HandlerSt → Except HandlerSt HandlerSt} {s : HandlerSt}
    (h : ∀ s', (runTry (rest s')).location = s'.location) :
    (runTry (probe name f rest s)).location = s.location := by
  cases f
  · exact h s
  · rfl
  · rfl

theorem darkBody_location (env : Env) (s : HandlerSt) :
    (runTry (darkBody env s)).location = s.location := by
  rw [darkBody]
  refine runTry_probe_location fun s1 => ?_
  refine runTry_probe_location fun s2 => ?_
  refine runTry_probe_location fun s3 => ?_
  exact runTry_probe_location fun s4 => rfl

theorem asideBody_location (env : Env) (s : HandlerSt) :
    (runTry (asideBody env s)).location = s.location := by
  rw [asideBody]
  exact runTry_probe_location fun s1 => rfl

theorem consoleBody_location (env : Env) (s : HandlerSt) :
    (runTry (consoleBody env s)).location = s.location := by
  rw [consoleBody]
  refine runTry_probe_location fun s1 => ?_
  exact runTry_probe_location fun s2 => rfl

theorem barrageBody_location (env : Env) (s : HandlerSt) :
    (runTry (barrageBody env s)).location = s.location := by
  rw [barrageBody]
  refine runTry_probe_location fun s1 => ?_
  exact runTry_probe_location fun s2 => rfl

theorem totopSt_location (env : Env) (s : HandlerSt) :
    (totopSt env s).location = s.location := by
  cases h : env.smoothScrollFails <;> simp [totopSt, h]

/-- Unless the branch is `randomPost` with the external function absent, no
branch writes `location.href`. -/
theorem stOfBranch_location_none {b : Option Tag} {env : Env}
    (h : b ≠ some Tag.randomPost ∨ env.toRandomPost ≠ ExtFn.absent) :
    (stOfBranch b env).location = none := by
  match b with
  | none => rfl
  | some Tag.darkmode => exact darkBody_location env st0
  | some Tag.asideSwitch => exact asideBody_location env st0
  | some Tag.consoleSwitch => exact consoleBody_location env st0
  | some Tag.bannerButton => rfl
  | some Tag.commentBarrage => exact barrageBody_location env st0
  | some Tag.totop => exact totopSt_location env st0
  | some Tag.sitePage => rfl
  | some Tag.randomPost =>
    have hf : env.toRandomPost ≠ ExtFn.absent := by
      rcases h with h | h
      · exact absurd rfl h
      · exact h
    show (runTry (randomBody env st0)).location = none
    rw [randomBody]
    cases he : env.toRandomPost with
    | absent => exact absurd he hf
    | succeeds => simp [probe, runTry, st0]
    | throws => simp [probe, runTry, st0]

/-- In the `randomPost` branch with the external function absent, the
listener assigns `/archives/` when the assignment does not throw, and ends
with no navigation when it does throw; either way nothing is called. -/
theorem randomBody_absent {env : Env} (he : env.toRandomPost = ExtFn.absent) :
    runTry (randomBody env st0) =
      if env.locationAssignThrows then st0 else { st0 with location := some "/archives/" } := by
  rw [randomBody]
  cases hl : env.locationAssignThrows <;> simp [probe, he, runTry]

/-- In the `randomPost` branch with the external function present, it is
called, and no navigation happens (a throwing call is caught). -/
theorem randomBody_present {env : Env} (he : env.toRandomPost ≠ ExtFn.absent) :
    runTry (randomBody env st0) = { st0 with called := ["toRandomPost"] } := by
  rw [randomBody]
  cases h : env.toRandomPost with
  | absent => exact absurd h he
  | succeeds => simp [probe, runTry, st0]
  | throws => simp [probe, runTry, st0]

/-! Claims -/

/-- C2: every anchor whose href (absent counting as empty) trims and
lowercases to the empty string or to a member of the invalid set, and whose
class list contains no member of `BUTTONY_CLASSES`, ends up with
`href="#current"` after processing. -/
theorem C2_invalid_href_rewritten (a : Anchor)
    (h1 : isInvalidHrefB a = true) (h2 : isButtonyB a = false) :
    (sanitizeOne a).1.href = some "#current" := by
  rw [sanitizeOne_plain_invalid h1 h2]

/-- Witness for C2 at the concrete anchor
`<a href=" JavaScript:Void(0) ">` (also exercising trim and lowercase). -/
theorem C2_invalid_href_rewritten_witness :
    isInvalidHrefB { blankAnchor with href := some " JavaScript:Void(0) " } = true ∧
    isButtonyB { blankAnchor with href := some " JavaScript:Void(0) " } = false ∧
    (sanitizeOne { blankAnchor with href := some " JavaScript:Void(0) " }).1.href
      = some "#current" :=
  ⟨by decide, by decide,
    C2_invalid_href_rewritten _ (by decide) (by decide)⟩

/-- C9: an anchor that is neither invalid-href nor onclick-only receives no
rewrite and no handler; only the unconditional rel hardening applies, and its
href is unchanged. -/
theorem C9_ordinary_only_hardened (a : Anchor)
    (h1 : isInvalidHrefB a = false) (h2 : a.onclick = none) :
    (sanitizeOne a).1 = hardenRel a ∧ (sanitizeOne a).2 = false ∧
    (sanitizeOne a).1.href = a.href := by
  have ho : hasOnclickB a = false := by simp [hasOnclickB, h2]
  rw [sanitizeOne_ordinary h1 ho]
  exact ⟨rfl, rfl, hardenRel_href a⟩

/-- Witness for C9 at the concrete anchor `<a href="/posts/1">Post</a>`. -/
theorem C9_ordinary_only_hardened_witness :
    isInvalidHrefB { blankAnchor with href := some "/posts/1" } = false ∧
    ({ blankAnchor with href := some "/posts/1" } : Anchor).onclick = none ∧
    ((sanitizeOne { blankAnchor with href := some "/posts/1" }).1
        = hardenRel { blankAnchor with href := some "/posts/1" } ∧
      (sanitizeOne { blankAnchor with href := some "/posts/1" }).2 = false ∧
      (sanitizeOne { blankAnchor with href := some "/posts/1" }).1.href
        = ({ blankAnchor with href := some "/posts/1" } : Anchor).href) :=
  ⟨by decide, by decide,
    C9_ordinary_only_hardened _ (by decide) (by decide)⟩

/-- C10: `sanitizeOne` never writes, removes, or alters the `onclick`
attribute, whatever the anchor's category. -/
theorem C10_onclick_never_touched (a : Anchor) :
    (sanitizeOne a).1.onclick = a.onclick := by
  rw [sanitizeOne]
  split
  · split
    · simp
    · split <;> simp
  · simp

/-- Counterexample to C4 as stated: an anchor with a non-null onclick, no
button class and an *absent* href does not keep its href untouched — the
absent href counts as empty, hence invalid, and is rewritten to
`"#current"`. -/
theorem C4_counterexample :
    onclickNoHrefAnchor.onclick ≠ none ∧
    isButtonyB onclickNoHrefAnchor = false ∧
    onclickNoHrefAnchor.href = none ∧
    (sanitizeOne onclickNoHrefAnchor).1.href = some "#current" := by
  decide

/-- C4 (amended): for an anchor with a non-null onclick attribute, no button
class, and a *valid present* href (trimmed/lowercased href nonempty and
outside the invalid set), processing leaves both href and onclick
untouched. -/
theorem C4_onclick_only_keeps_href (a : Anchor) (h1 : a.onclick ≠ none)
    (h2 : isButtonyB a = false) (h3 : isInvalidHrefB a = false) :
    (sanitizeOne a).1.href = a.href ∧ (sanitizeOne a).1.onclick = a.onclick := by
  by_cases ho : hasOnclickB a = true
  · rw [sanitizeOne_onclick_only h3 ho h2]
    exact ⟨hardenRel_href a, hardenRel_onclick a⟩
  · rw [sanitizeOne_ordinary h3 (by simpa using ho)]
    exact ⟨hardenRel_href a, hardenRel_onclick a⟩

/-- Witness for the amended C4 at `<a href="/posts/1" onclick="go()">`. -/
theorem C4_onclick_only_keeps_href_witness :
    ({ blankAnchor with href := some "/posts/1", onclick := some "go()" } : Anchor).onclick
        ≠ none ∧
    isButtonyB { blankAnchor with href := some "/posts/1", onclick := some "go()" } = false ∧
    isInvalidHrefB { blankAnchor with href := some "/posts/1", onclick := some "go()" }
        = false ∧
    ((sanitizeOne { blankAnchor with href := some "/posts/1", onclick := some "go()" }).1.href
        = ({ blankAnchor with href := some "/posts/1", onclick := some "go()" } : Anchor).href ∧
      (sanitizeOne { blankAnchor with href := some "/posts/1", onclick := some "go()" }).1.onclick
        = ({ blankAnchor with href := some "/posts/1", onclick := some "go()" } : Anchor).onclick) :=
  ⟨by decide, by decide, by decide,
    C4_onclick_only_keeps_href _ (by decide) (by decide) (by decide)⟩

/-- C5: one classify-and-rewrite pass is idempotent on the anchor's attribute
state — running `sanitizeOne` on an already-processed anchor reproduces the
same attribute state (href, target, rel, role, tabindex, onclick, classes).
(The second pass does attach listeners to a button-like anchor again; the
attribute state is nevertheless unchanged.) -/
theorem C5_pass_idempotent (a : Anchor) :
    (sanitizeOne (sanitizeOne a).1).1 = (sanitizeOne a).1 := by
  by_cases hc : (isInvalidHrefB a || hasOnclickB a) = true
  · by_cases hbt : isButtonyB a = true
    · rw [sanitizeOne_buttony hc hbt]
      show (sanitizeOne (makeButtonLike (hardenRel a))).1 = makeButtonLike (hardenRel a)
      have hib : isInvalidHrefB (makeButtonLike (hardenRel a)) = true :=
        isInvalidHrefB_hash (makeButtonLike_href _)
      have hbb : isButtonyB (makeButtonLike (hardenRel a)) = true := by
        rw [isButtonyB_congr (show (makeButtonLike (hardenRel a)).classes = a.classes by simp)]
        exact hbt
      rw [sanitizeOne_buttony (by rw [hib]; rfl) hbb]
      show makeButtonLike (hardenRel (makeButtonLike (hardenRel a)))
          = makeButtonLike (hardenRel a)
      rw [hardenRel_fixes (x := makeButtonLike (hardenRel a)) (y := a)
        (makeButtonLike_rel _) (by simp)]
      exact makeButtonLike_idem _
    · have hbf : isButtonyB a = false := by simpa using hbt
      by_cases hi : isInvalidHrefB a = true
      · rw [sanitizeOne_plain_invalid hi hbf]
        show (sanitizeOne { hardenRel a with href := some "#current" }).1
            = { hardenRel a with href := some "#current" }
        have hib : isInvalidHrefB { hardenRel a with href := some "#current" } = false :=
          isInvalidHrefB_current rfl
        have hhb : hardenRel { hardenRel a with href := some "#current" }
            = { hardenRel a with href := some "#current" } :=
          hardenRel_fixes (y := a) rfl (hardenRel_target a)
        have hbb : isButtonyB { hardenRel a with href := some "#current" } = false := by
          rw [isButtonyB_congr
            (show ({ hardenRel a with href := some "#current" } : Anchor).classes = a.classes
              from hardenRel_classes a)]
          exact hbf
        by_cases ho : hasOnclickB { hardenRel a with href := some "#current" } = true
        · rw [sanitizeOne_onclick_only hib ho hbb]
          exact hhb
        · rw [sanitizeOne_ordinary hib (by simpa using ho)]
          exact hhb
      · have hif : isInvalidHrefB a = false := by simpa using hi
        have ho : hasOnclickB a = true := by
          rcases Bool.or_eq_true_iff.mp hc with h | h
          · exact absurd h (by simp [hif])
          · exact h
        rw [sanitizeOne_onclick_only hif ho hbf]
        show (sanitizeOne (hardenRel a)).1 = hardenRel a
        have e1 : isInvalidHrefB (hardenRel a) = false := by
          rw [isInvalidHrefB_congr (hardenRel_href a)]
          exact hif
        have e2 : hasOnclickB (hardenRel a) = true := by
          rw [hasOnclickB_congr (hardenRel_onclick a)]
          exact ho
        have e3 : isButtonyB (hardenRel a) = false := by
          rw [isButtonyB_congr (hardenRel_classes a)]
          exact hbf
        rw [sanitizeOne_onclick_only e1 e2 e3]
        exact hardenRel_idem a
  · have hc2 := Bool.or_eq_false_iff.mp (by simpa using hc)
    rw [sanitizeOne_ordinary hc2.1 hc2.2]
    show (sanitizeOne (hardenRel a)).1 = hardenRel a
    have e1 : isInvalidHrefB (hardenRel a) = false := by
      rw [isInvalidHrefB_congr (hardenRel_href a)]
      exact hc2.1
    have e2 : hasOnclickB (hardenRel a) = false := by
      rw [hasOnclickB_congr (hardenRel_onclick a)]
      exact hc2.2
    rw [sanitizeOne_ordinary e1 e2]
    exact hardenRel_idem a

/-- Counterexample to C1 as stated: (a) a button-class anchor with a valid
href is not rewritten at all (its href stays `/posts/1`, not `"#"`); (b) a
rewritten `randomPost` button does change `location.href` on click when the
external random-post function is absent (it navigates to `/archives/`). -/
theorem C1_counterexample :
    isButtonyB validHrefButtonAnchor = true ∧
    (sanitizeOne validHrefButtonAnchor).1.href ≠ some "#" ∧
    isButtonyB emptyHrefRandomAnchor = true ∧
    (sanitizeOne emptyHrefRandomAnchor).1.href = some "#" ∧
    (clickHandler (sanitizeOne emptyHrefRandomAnchor).1 envAllAbsent).st.location
      = some "/archives/" := by
  decide

/-- C1 (amended): every button-class anchor that is a rewrite candidate
(invalid href or onclick present) ends with `href="#"`, `role="button"`,
`tabindex="0"`; a click suppresses the default navigation, and does not
change `location.href` except through the `randomPost` fallback (first
matching tag `randomPost` with the external function absent). -/
theorem C1_buttony_rewrite (a : Anchor) (env : Env)
    (hb : isButtonyB a = true)
    (hc : (isInvalidHrefB a || hasOnclickB a) = true) :
    (sanitizeOne a).1.href = some "#" ∧
    (sanitizeOne a).1.role = some "button" ∧
    (sanitizeOne a).1.tabindex = some "0" ∧
    (clickHandler (sanitizeOne a).1 env).prevented = true ∧
    ((firstTag a.classes = some Tag.randomPost → env.toRandomPost ≠ ExtFn.absent) →
      (clickHandler (sanitizeOne a).1 env).st.location = none) := by
  rw [sanitizeOne_buttony hc hb]
  dsimp only
  refine ⟨rfl, rfl, rfl, ?_, ?_⟩
  · rw [clickHandler_prevented]
    simp
  · intro h
    rw [clickHandler_st, clickHandler_branch]
    have hcl : (makeButtonLike (hardenRel a)).classes = a.classes := by simp
    rw [hcl]
    by_cases hr : firstTag a.classes = some Tag.randomPost
    · exact stOfBranch_location_none (Or.inr (h hr))
    · exact stOfBranch_location_none (Or.inl hr)

/-- Witness for the amended C1 at the spec's scenario anchor
`<a class="totopbtn" href="javascript:void(0);">` in a host with no external
functions. -/
theorem C1_buttony_rewrite_witness :
    isButtonyB voidTotopAnchor = true ∧
    (isInvalidHrefB voidTotopAnchor || hasOnclickB voidTotopAnchor) = true ∧
    ((sanitizeOne voidTotopAnchor).1.href = some "#" ∧
      (sanitizeOne voidTotopAnchor).1.role = some "button" ∧
      (sanitizeOne voidTotopAnchor).1.tabindex = some "0" ∧
      (clickHandler (sanitizeOne voidTotopAnchor).1 envAllAbsent).prevented = true ∧
      ((firstTag voidTotopAnchor.classes = some Tag.randomPost →
          envAllAbsent.toRandomPost ≠ ExtFn.absent) →
        (clickHandler (sanitizeOne voidTotopAnchor).1 envAllAbsent).st.location = none)) :=
  ⟨by decide, by decide,
    C1_buttony_rewrite _ _ (by decide) (by decide)⟩

/-- Counterexample to C3 as stated: with `target="_blank"` and existing
`rel="External"`, the existing token `External` is *not* preserved — the
source lowercases the rel value before splitting, so the resulting token set
is `{external, noopener, noreferrer}`, not the union containing
`External`. -/
theorem C3_counterexample :
    lowerStr (mixedCaseRelAnchor.target.getD "") = "_blank" ∧
    "External" ∈ relTokens (mixedCaseRelAnchor.rel.getD "") ∧
    relTokens ((hardenRel mixedCaseRelAnchor).rel.getD "")
      = ["external", "noopener", "noreferrer"] ∧
    "External" ∉ relTokens ((hardenRel mixedCaseRelAnchor).rel.getD "") := by
  decide

/-- C3 (amended): for every anchor whose target equals `_blank`
case-insensitively, the rewritten rel token set equals the union of the
*lowercased* previous rel tokens (split on whitespace, empty tokens
discarded) with `{noopener, noreferrer}`, with duplicates collapsed, and
re-running the hardening on the result is the identity. -/
theorem C3_rel_union (a : Anchor) (hb : lowerStr (a.target.getD "") = "_blank") :
    (∀ x, x ∈ relTokens ((hardenRel a).rel.getD "")
        ↔ x ∈ relTokens (lowerStr (a.rel.getD "")) ∨ x ∈ requiredRel) ∧
    (relTokens ((hardenRel a).rel.getD "")).Nodup ∧
    hardenRel (hardenRel a) = hardenRel a := by
  rw [hardenRel_rel_blank hb]
  refine ⟨?_, ?_, hardenRel_idem a⟩
  · intro x
    rw [show (some (hardenedRelValue (a.rel.getD ""))).getD ""
          = hardenedRelValue (a.rel.getD "") from rfl,
      relTokens_hardenedRelValue]
    exact mem_hardenedTokens _ x
  · rw [show (some (hardenedRelValue (a.rel.getD ""))).getD ""
          = hardenedRelValue (a.rel.getD "") from rfl,
      relTokens_hardenedRelValue]
    exact hardenedTokens_nodup _

/-- Witness for the amended C3 at the claim's own instance: `target="_Blank"`
with existing `rel="noopener"`. -/
theorem C3_rel_union_witness :
    lowerStr (blankTargetRelAnchor.target.getD "") = "_blank" ∧
    ((∀ x, x ∈ relTokens ((hardenRel blankTargetRelAnchor).rel.getD "")
        ↔ x ∈ relTokens (lowerStr (blankTargetRelAnchor.rel.getD "")) ∨ x ∈ requiredRel) ∧
      (relTokens ((hardenRel blankTargetRelAnchor).rel.getD "")).Nodup ∧
      hardenRel (hardenRel blankTargetRelAnchor) = hardenRel blankTargetRelAnchor) :=
  ⟨by decide, C3_rel_union _ (by decide)⟩

/-- C6: when an anchor's class list matches more than one behavior tag,
exactly one branch executes — the one for the first matching tag in the fixed
priority order — and the dispatch chain short-circuits there. -/
theorem C6_first_match_wins (a : Anchor) (env : Env)
    (h : 2 ≤ (tagOrder.filter fun t => matchesTag a.classes t).length) :
    (clickHandler a env).branch = firstTag a.classes ∧
    ∃ t, firstTag a.classes = some t := by
  refine ⟨clickHandler_branch a env, ?_⟩
  have hne : (tagOrder.filter fun t => matchesTag a.classes t) ≠ [] := by
    intro hcon
    rw [hcon] at h
    simp at h
  obtain ⟨t, ht⟩ := List.exists_mem_of_ne_nil _ hne
  have htm : matchesTag a.classes t = true := (List.mem_filter.mp ht).2
  cases hf : firstTag a.classes with
  | some u => exact ⟨u, rfl⟩
  | none =>
    exfalso
    rw [firstTag] at hf
    exact (List.find?_eq_none.mp hf t (List.mem_filter.mp ht).1) htm

/-- Witness for C6 at an anchor carrying both the `darkmode_switchbutton` and
`totopbtn` classes. -/
theorem C6_first_match_wins_witness :
    2 ≤ (tagOrder.filter fun t => matchesTag multiTagAnchor.classes t).length ∧
    ((clickHandler multiTagAnchor envAllAbsent).branch = firstTag multiTagAnchor.classes ∧
      ∃ t, firstTag multiTagAnchor.classes = some t) :=
  ⟨by decide, C6_first_match_wins _ _ (by decide)⟩

/-- C7: for every anchor and every configuration of the optional external
theme functions (absent, present-and-succeeding, or present-and-throwing),
no exception escapes the click listener: every external call sits inside a
`try { } catch (_) {}`. -/
theorem C7_click_never_throws (a : Anchor) (env : Env) :
    (clickHandler a env).propagated = false :=
  clickHandler_propagated a env

/-- Counterexample to C8 as stated: when `toRandomPost` is absent and the
fallback `location.href = '/archives/'` assignment throws, the failure *is*
swallowed — the assignment sits inside the same `try { } catch (_) {}` as the
call attempt, so no error propagates (and no navigation happens). -/
theorem C8_counterexample :
    locationThrowsEnv.toRandomPost = ExtFn.absent ∧
    locationThrowsEnv.locationAssignThrows = true ∧
    (clickHandler randomPostAnchor locationThrowsEnv).branch = some Tag.randomPost ∧
    (clickHandler randomPostAnchor locationThrowsEnv).propagated = false ∧
    (clickHandler randomPostAnchor locationThrowsEnv).st.location = none := by
  decide

/-- C8 (amended): on a click whose first matching tag is `randomPost`: if the
external function is present it is called (and nothing is assigned to
`location.href`, a throwing call being caught); if it is absent the listener
assigns the fixed fallback `/archives/` — and a failure of that fallback
assignment is *also* swallowed by the same protected region, leaving the
location unchanged.  No error ever propagates. -/
theorem C8_randomPost_dispatch (a : Anchor) (env : Env)
    (h : firstTag a.classes = some Tag.randomPost) :
    (clickHandler a env).propagated = false ∧
    (env.toRandomPost ≠ ExtFn.absent →
      (clickHandler a env).st.called = ["toRandomPost"] ∧
      (clickHandler a env).st.location = none) ∧
    (env.toRandomPost = ExtFn.absent → env.locationAssignThrows = false →
      (clickHandler a env).st.location = some "/archives/") ∧
    (env.toRandomPost = ExtFn.absent → env.locationAssignThrows = true →
      (clickHandler a env).st.location = none ∧ (clickHandler a env).st.called = []) := by
  rw [clickHandler_st, clickHandler_branch, h]
  refine ⟨clickHandler_propagated a env, ?_, ?_, ?_⟩
  · intro hne
    rw [show stOfBranch (some Tag.randomPost) env = runTry (randomBody env st0) from rfl,
      randomBody_present hne]
    exact ⟨rfl, rfl⟩
  · intro he hl
    rw [show stOfBranch (some Tag.randomPost) env = runTry (randomBody env st0) from rfl,
      randomBody_absent he, hl]
    rfl
  · intro he hl
    rw [show stOfBranch (some Tag.randomPost) env = runTry (randomBody env st0) from rfl,
      randomBody_absent he, hl]
    exact ⟨rfl, rfl⟩

/-- Witness for the amended C8: the spec's scenario — a `randomPost` anchor
clicked in a host with no `toRandomPost` — navigates to `/archives/`. -/
theorem C8_randomPost_dispatch_witness :
    firstTag randomPostAnchor.classes = some Tag.randomPost ∧
    ((clickHandler randomPostAnchor envAllAbsent).propagated = false ∧
      (envAllAbsent.toRandomPost ≠ ExtFn.absent →
        (clickHandler randomPostAnchor envAllAbsent).st.called = ["toRandomPost"] ∧
        (clickHandler randomPostAnchor envAllAbsent).st.location = none) ∧
      (envAllAbsent.toRandomPost = ExtFn.absent →
        envAllAbsent.locationAssignThrows = false →
        (clickHandler randomPostAnchor envAllAbsent).st.location = some "/archives/") ∧
      (envAllAbsent.toRandomPost = ExtFn.absent →
        envAllAbsent.locationAssignThrows = true →
        (clickHandler randomPostAnchor envAllAbsent).st.location = none ∧
        (clickHandler randomPostAnchor envAllAbsent).st.called = [])) :=
  ⟨by decide, C8_randomPost_dispatch _ _ (by decide)⟩

end FixLinks
